import Mathlib

/-!
Verification of the OpenDeep repository fragment:
* the lazy stream-modification wrapper `ModifyStream` (the spec's
  `TransformingSequence`), whose implementation file is absent from the
  fragment (only its unit test is present), so the wrapper is modelled
  from the specification's traversal contract; and
* the `Dense` / `SoftmaxLayer` initialisation logic from
  `opendeep/models/single_layer/basic.py`.
-/

set_option maxHeartbeats 1000000

namespace OpenDeep

/-- Modelled from the spec: the result of one pull-based traversal step of a
source with state type `σ`, element type `α` and failure type `ε`.  A step
either yields a value together with the advanced source state, signals
exhaustion (the distinguished "no more elements" signal, distinct from any
element value), or surfaces a failure of the source. -/
inductive Step (σ α ε : Type) where
  | yield (s : σ) (a : α)
  | done
  | error (e : ε)
deriving DecidableEq, Repr

/-- Modelled from the spec: the `ModifyStream` / `TransformingSequence`
object itself.  `opendeep/data/stream/modifystream.py` is missing from the
fragment (only `tests/test_modifystream.py` references it); per the spec,
construction merely stores the borrowed `stream` reference and the
`func` transform, performing no traversal and no validation. -/
structure ModifyStream (σ α β ε : Type) where
  stream : σ
  func : α → Except ε β

/-- Modelled from the spec: one traversal step of the wrapper.  Fetch the
next element from the source; on exhaustion the produced sequence ends; on a
source failure that failure propagates unchanged; otherwise apply the
transform to the single fetched element and either emit the single result or
propagate the transform's failure. -/
def modifyNext {σ α β ε : Type} (next : σ → Step σ α ε) (func : α → Except ε β)
    (s : σ) : Step σ β ε :=
  match next s with
  | .yield s' a =>
      match func a with
      | .ok b => .yield s' b
      | .error e => .error e
  | .done => .done
  | .error e => .error e

/-- Outcome of a bounded traversal: the sequence finished (exhaustion signal
observed), a failure was surfaced, or the fuel (number of requested
traversal steps) ran out before either. -/
inductive Outcome (ε : Type) where
  | finished
  | failed (e : ε)
  | outOfFuel
deriving DecidableEq, Repr

/-- Drive a pull-based sequence for at most `fuel` traversal steps,
returning the emitted values in order, the final source state, and the
outcome.  `fuel` is exactly the number of steps the consumer requests, so
running with fuel `k` models a consumer that requests only the first `k`
elements. -/
def runTrace {σ β ε : Type} (next : σ → Step σ β ε) :
    Nat → σ → List β × σ × Outcome ε
  | 0, s => ([], s, .outOfFuel)
  | fuel + 1, s =>
      match next s with
      | .done => ([], s, .finished)
      | .error e => ([], s, .failed e)
      | .yield s' b =>
          let r := runTrace next fuel s'
          (b :: r.1, r.2.1, r.2.2)

/-- A well-behaved finite source backed by a Lean list: the remaining list
is the source state, fetching pops the head, and the empty list signals
exhaustion. -/
def listNext {α ε : Type} : List α → Step (List α) α ε
  | [] => .done
  | a :: rest => .yield rest a

/-- Lift a pure total function to the `Except`-valued transform shape the
wrapper consumes. -/
def pureFunc {α β ε : Type} (f : α → β) : α → Except ε β :=
  fun a => .ok (f a)

/-- Numeric value of a decimal digit character, `none` for a non-digit. -/
def digitValue (c : Char) : Option Nat :=
  if '0' ≤ c ∧ c ≤ '9' then some (c.toNat - '0'.toNat) else none

/-- Accumulate a decimal number over a list of characters; `none` as soon
as a non-digit is met. -/
def parseDigits : List Char → Nat → Option Nat
  | [], acc => some acc
  | c :: rest, acc =>
      match digitValue c with
      | some d => parseDigits rest (10 * acc + d)
      | none => none

/-- The `lambda s: int(s)` transform of the unit test: decimal integer
parsing (optional leading minus), which fails — as Python's `int` raises
`ValueError` — on non-numeric strings. -/
def parseInteger (s : String) : Except String Int :=
  match s.data with
  | [] => .error "invalid literal for int() with base 10"
  | '-' :: c :: rest =>
      match parseDigits (c :: rest) 0 with
      | some n => .ok (-(n : Int))
      | none => .error "invalid literal for int() with base 10"
  | l =>
      match parseDigits l 0 with
      | some n => .ok (n : Int)
      | none => .error "invalid literal for int() with base 10"

deriving instance DecidableEq for Except

lemma runTrace_modify_ok_prefix {α β ε : Type} (f : α → Except ε β) (g : α → β) :
    ∀ (k : Nat) (S : List α), k ≤ S.length →
      (∀ x ∈ S.take k, f x = .ok (g x)) →
      runTrace (modifyNext listNext f) k S
        = ((S.take k).map g, S.drop k, Outcome.outOfFuel) := by
  intro k
  induction k with
  | zero => intro S _ _; simp [runTrace]
  | succ k ih =>
    intro S hlen hok
    cases S with
    | nil => simp at hlen
    | cons a rest =>
      have ha : f a = .ok (g a) := hok a (by simp)
      have hrest := ih rest (by simpa using hlen)
        (fun x hx => hok x (by simp [hx]))
      simp [runTrace, modifyNext, listNext, ha, hrest]

lemma runTrace_modify_finished {α β ε : Type} (f : α → Except ε β) (g : α → β)
    (hok : ∀ x, f x = .ok (g x)) :
    ∀ (S : List α) (fuel : Nat), S.length < fuel →
      runTrace (modifyNext listNext f) fuel S
        = (S.map g, [], Outcome.finished) := by
  intro S
  induction S with
  | nil =>
    intro fuel h
    cases fuel with
    | zero => omega
    | succ n => simp [runTrace, modifyNext, listNext]
  | cons a rest ih =>
    intro fuel h
    cases fuel with
    | zero => simp at h
    | succ n =>
      have hrest := ih n (by simp at h; omega)
      simp [runTrace, modifyNext, listNext, hok a, hrest]

lemma runTrace_modify_fail {α β ε : Type} (f : α → Except ε β) (g : α → β)
    (e : ε) (a : α) (ha : f a = .error e) :
    ∀ (pre post : List α) (fuel : Nat), pre.length < fuel →
      (∀ x ∈ pre, f x = .ok (g x)) →
      runTrace (modifyNext listNext f) fuel (pre ++ a :: post)
        = (pre.map g, a :: post, Outcome.failed e) := by
  intro pre
  induction pre with
  | nil =>
    intro post fuel hf _
    cases fuel with
    | zero => omega
    | succ n => simp [runTrace, modifyNext, listNext, ha]
  | cons x rest ih =>
    intro post fuel hf hok
    cases fuel with
    | zero => simp at hf
    | succ n =>
      have hx : f x = .ok (g x) := hok x (by simp)
      have hrest := ih post n (by simp at hf; omega)
        (fun y hy => hok y (by simp [hy]))
      simp [runTrace, modifyNext, listNext, hx, hrest]

lemma modifyNext_modifyNext {σ α β γ ε : Type} (next : σ → Step σ α ε)
    (f : α → Except ε β) (g : β → Except ε γ) (s : σ) :
    modifyNext (modifyNext next f) g s
      = modifyNext next (fun a => (f a).bind g) s := by
  cases h : next s with
  | yield s' a =>
      cases hf : f a with
      | ok b => simp [modifyNext, h, hf, Except.bind]
      | error e => simp [modifyNext, h, hf, Except.bind]
  | done => simp [modifyNext, h]
  | error e => simp [modifyNext, h]

/-- C1: traversing `ModifyStream(S, f)` over a finite list source yields
exactly `S.map f` in the order of `S`, with the same length as `S`, ending
in the exhaustion signal; in particular for source `["1", "2", "3"]` and
integer parsing it yields `1, 2, 3` in order and then exhaustion at the
fourth step. -/
theorem c1_transform_yields_map {α β ε : Type} (f : α → β) (S : List α) :
    (runTrace (ε := ε) (modifyNext listNext (pureFunc f)) (S.length + 1) S
        = (S.map f, [], Outcome.finished)
      ∧ (S.map f).length = S.length)
    ∧ runTrace (modifyNext listNext parseInteger) 4 ["1", "2", "3"]
        = ([1, 2, 3], [], Outcome.finished) := by
  refine ⟨⟨?_, by simp⟩, by decide⟩
  exact runTrace_modify_finished (pureFunc f) f (fun _ => rfl) S (S.length + 1)
    (by omega)

/-- C2: laziness.  A consumer that requests only the first `k` elements of
the wrapped sequence (`k < S.length`) causes exactly `k` fetches from the
list source (the remaining source state is `S.drop k`, so
`S.length - (S.drop k).length = k` elements were fetched) and exactly `k`
transform applications, once per fetched element in index order (the
emitted values are `(S.take k).map f`). -/
theorem c2_transform_lazy {α β ε : Type} (f : α → β) (S : List α) (k : Nat)
    (hk : k < S.length) :
    runTrace (ε := ε) (modifyNext listNext (pureFunc f)) k S
        = ((S.take k).map f, S.drop k, Outcome.outOfFuel)
      ∧ S.length - (S.drop k).length = k
      ∧ ((S.take k).map f).length = k := by
  refine ⟨?_, by simp; omega, by simp; omega⟩
  exact runTrace_modify_ok_prefix (pureFunc f) f k S (le_of_lt hk)
    (fun _ _ => rfl)

theorem c2_transform_lazy_witness :
    runTrace (ε := Unit) (modifyNext listNext (pureFunc (fun n : Nat => n + 1)))
        2 [10, 20, 30]
      = (([10, 20, 30].take 2).map (fun n : Nat => n + 1), [10, 20, 30].drop 2,
          Outcome.outOfFuel)
    ∧ [10, 20, 30].length - (([10, 20, 30] : List Nat).drop 2).length = 2
    ∧ ((([10, 20, 30] : List Nat).take 2).map (fun n : Nat => n + 1)).length = 2 :=
  c2_transform_lazy (fun n : Nat => n + 1) [10, 20, 30] 2 (by decide)

/-- C3: failure propagation.  If the transform succeeds (as `g`) on every
element of `pre` and fails with `e` on `a`, then: at any traversal step
count past `pre`, the run yields exactly the transformed prefix
`pre.map g`, then the failure `e`, and the elements of `post` (those after
the failing position) are still unfetched in the remaining source state;
after only `pre.length` requested steps the failure has not yet been
observed; and any failure surfaced by the source itself propagates through
`modifyNext` unchanged, with no wrapping or substitution. -/
theorem c3_failure_propagation {σ α β ε : Type} (g : α → β) (e : ε)
    (f : α → Except ε β) (pre post : List α) (a : α)
    (hpre : ∀ x ∈ pre, f x = .ok (g x)) (ha : f a = .error e) :
    (∀ m, runTrace (modifyNext listNext f) (pre.length + 1 + m) (pre ++ a :: post)
        = (pre.map g, a :: post, Outcome.failed e))
    ∧ runTrace (modifyNext listNext f) pre.length (pre ++ a :: post)
        = (pre.map g, a :: post, Outcome.outOfFuel)
    ∧ (∀ (next : σ → Step σ α ε) (s : σ) (e₀ : ε),
        next s = .error e₀ → modifyNext next f s = .error e₀) := by
  refine ⟨fun m => runTrace_modify_fail f g e a ha pre post _ (by omega) hpre,
    ?_, fun next s e₀ h => by simp [modifyNext, h]⟩
  have h := runTrace_modify_ok_prefix f g pre.length (pre ++ a :: post)
    (by simp) (by simpa using hpre)
  simpa using h

theorem c3_failure_propagation_witness :
    (∀ m, runTrace (modifyNext listNext parseInteger) (["1", "2"].length + 1 + m)
          (["1", "2"] ++ "x" :: ["4", "5"])
        = (["1", "2"].map (fun s => ((parseInteger s).toOption).getD 0),
            "x" :: ["4", "5"],
            Outcome.failed "invalid literal for int() with base 10"))
    ∧ runTrace (modifyNext listNext parseInteger) ["1", "2"].length
          (["1", "2"] ++ "x" :: ["4", "5"])
        = (["1", "2"].map (fun s => ((parseInteger s).toOption).getD 0),
            "x" :: ["4", "5"], Outcome.outOfFuel)
    ∧ (∀ (next : Unit → Step Unit String String) (s : Unit) (e₀ : String),
        next s = .error e₀ → modifyNext next parseInteger s = .error e₀) :=
  c3_failure_propagation (fun s => ((parseInteger s).toOption).getD 0)
    "invalid literal for int() with base 10" parseInteger ["1", "2"] ["4", "5"] "x"
    (by decide) (by decide)

/-- C4: exhaustion.  Traversing the wrapper over a finite list source to
completion and then requesting one (or any number) more element(s) yields
the `finished` outcome — the distinguished "no more elements" signal — not
a failure; and the wrapper's step on the exhausted source state is exactly
the terminal `done` signal with no value emitted. -/
theorem c4_exhaustion {α β ε : Type} (f : α → β) (S : List α) (m : Nat) :
    runTrace (ε := ε) (modifyNext listNext (pureFunc f)) (S.length + 1 + m) S
        = (S.map f, [], Outcome.finished)
    ∧ modifyNext (listNext (ε := ε)) (pureFunc f) ([] : List α) = Step.done := by
  exact ⟨runTrace_modify_finished (pureFunc f) f (fun _ => rfl) S _ (by omega), rfl⟩

/-- C5: construction of a `ModifyStream` merely stores the source and the
transform — it performs zero traversal steps, so zero fetches and zero
transform calls (a run of zero requested steps emits nothing and leaves the
source state untouched); construction never fails even for a source whose
every step fails, and such a source surfaces its failure exactly at the
first traversal step. -/
theorem c5_construction_no_traversal {σ α β ε : Type} (s : σ)
    (f : α → Except ε β) (next : σ → Step σ α ε) (e : ε)
    (hbad : ∀ t, next t = Step.error e) :
    (ModifyStream.mk s f).stream = s
    ∧ (ModifyStream.mk s f).func = f
    ∧ runTrace (modifyNext next f) 0 s = ([], s, Outcome.outOfFuel)
    ∧ runTrace (modifyNext next f) 1 s = ([], s, Outcome.failed e) := by
  refine ⟨rfl, rfl, rfl, ?_⟩
  simp [runTrace, modifyNext, hbad s]

theorem c5_construction_no_traversal_witness :
    (ModifyStream.mk () parseInteger).stream = ()
    ∧ (ModifyStream.mk () parseInteger).func = parseInteger
    ∧ runTrace (modifyNext (fun _ : Unit => Step.error "io error") parseInteger) 0 ()
        = ([], (), Outcome.outOfFuel)
    ∧ runTrace (modifyNext (fun _ : Unit => Step.error "io error") parseInteger) 1 ()
        = ([], (), Outcome.failed "io error") :=
  c5_construction_no_traversal () parseInteger (fun _ => Step.error "io error")
    "io error" (fun _ => rfl)

/-- C6: composability.  A `ModifyStream` used as the source of a second
`ModifyStream` steps exactly like a single `ModifyStream` with the
composed transform, and over a finite list source with pure transforms the
composition yields `g (f sᵢ)` for every element, in the original order. -/
theorem c6_composability {σ α β γ ε : Type} (f : α → Except ε β)
    (g : β → Except ε γ) (next : σ → Step σ α ε) (s : σ)
    (f₀ : α → β) (g₀ : β → γ) (S : List α) :
    modifyNext (modifyNext next f) g s
        = modifyNext next (fun a => (f a).bind g) s
    ∧ runTrace (ε := ε) (modifyNext (modifyNext listNext (pureFunc f₀)) (pureFunc g₀))
          (S.length + 1) S
        = (S.map (fun a => g₀ (f₀ a)), [], Outcome.finished) := by
  refine ⟨modifyNext_modifyNext next f g s, ?_⟩
  have hfun : modifyNext (modifyNext listNext (pureFunc f₀)) (pureFunc (ε := ε) g₀)
      = modifyNext listNext (pureFunc (fun a => g₀ (f₀ a))) := by
    funext t
    rw [modifyNext_modifyNext]
    rfl
  rw [hfun]
  exact runTrace_modify_finished _ (fun a => g₀ (f₀ a)) (fun _ => rfl) S _ (by omega)

/-- C7: the wrapped sequence is finite exactly when the source is finite:
for every step budget and source state, the wrapper's traversal outcome
(finished / failed / out of fuel) coincides with the source's, its emitted
values are the source's mapped through the transform, and the final source
state is identical — so the wrapper terminates exactly when the source
does, and needs no known length (the statement holds for arbitrary, also
never-exhausting, sources). -/
theorem c7_finite_iff_source_finite {σ α β ε : Type} (f : α → β)
    (next : σ → Step σ α ε) (fuel : Nat) (s : σ) :
    (runTrace (modifyNext next (pureFunc f)) fuel s).2.2
        = (runTrace next fuel s).2.2
    ∧ (runTrace (modifyNext next (pureFunc f)) fuel s).1
        = (runTrace next fuel s).1.map f
    ∧ (runTrace (modifyNext next (pureFunc f)) fuel s).2.1
        = (runTrace next fuel s).2.1 := by
  induction fuel generalizing s with
  | zero => exact ⟨rfl, rfl, rfl⟩
  | succ n ih =>
    cases h : next s with
    | yield s' a =>
        obtain ⟨h1, h2, h3⟩ := ih s'
        simp [runTrace, modifyNext, h, pureFunc, h1, h2, h3]
    | done => simp [runTrace, modifyNext, h]
    | error e => simp [runTrace, modifyNext, h]

/-- Python value that can appear as the `noise` argument of
`Dense.__init__`: the default `None`, the literal `False` that
`SoftmaxLayer.__init__` always passes, or a noise-name string such as
`'dropout'`. -/
inductive PyNoise where
  | pyNone
  | pyFalse
  | pyStr (s : String)
deriving DecidableEq, Repr

/-- Python truthiness of a `noise` argument, as tested by `if noise:` in
`Dense.__init__` (basic.py line 152): `None` and `False` are falsy, a
string is truthy exactly when non-empty. -/
def PyNoise.truthy : PyNoise → Bool
  | .pyNone => false
  | .pyFalse => false
  | .pyStr s => !s.isEmpty

/-- Python value appearing as `input_size` / `output_size`: `None` (the
default) or an integer. -/
inductive PySize where
  | pyNone
  | pyInt (n : Int)
deriving DecidableEq, Repr

/-- Python truthiness of a size value: `None` is falsy and an integer is
falsy exactly when it is `0`. -/
def PySize.truthy : PySize → Bool
  | .pyNone => false
  | .pyInt n => n != 0

/-- Python's short-circuit `a or b` on size values: `a` when `a` is
truthy, otherwise `b` — exactly the expression
`self.output_size or self.input_size` of basic.py line 109. -/
def pyOr (a b : PySize) : PySize :=
  if a.truthy then a else b

/-- Observable attributes produced by the modelled fragment of
`Dense.__init__` over an abstract type `V` of theano shared variables:
the stored activation name, the resolved `self.output_size`, the
parameter list `self.params`, the optional noise `self.switch` attribute
(present only when the noise branch ran), the number of freshly
initialized shared variables, and the shapes passed to `get_weights` /
`get_bias` when fresh parameters were created. -/
structure DenseAttrs (V : Type) where
  activation : String
  output_size : PySize
  params : List V
  switch : Option V
  freshInits : Nat
  wShape : Option (PySize × PySize)
  bShape : Option PySize
deriving DecidableEq, Repr

/-- Shallow embedding of the observable logic of `Dense.__init__`
(basic.py lines 108-164): resolve
`self.output_size = self.output_size or self.input_size` by Python
truthiness; if `params_hook is not None`, assert it has exactly 2 entries
(failing before any parameter is created) and use the hooked pair
unmodified as `self.params`; otherwise freshly initialize `W` with shape
`(self.input_size, self.output_size)` and `b` with shape taken from the
raw `output_size` argument (as line 138 does); finally install the noise
switch attribute only when `noise` is truthy. -/
def denseInit {V : Type} (input_size output_size : PySize)
    (params_hook : Option (List V)) (activation : String) (noise : PyNoise)
    (freshW freshB switchVar : V) : Except String (DenseAttrs V) :=
  let out_size := pyOr output_size input_size
  let sw : Option V := if noise.truthy then some switchVar else none
  match params_hook with
  | some hook =>
      if hook.length = 2 then
        .ok { activation := activation, output_size := out_size,
              params := hook, switch := sw, freshInits := 0,
              wShape := none, bShape := none }
      else
        .error "Expected 2 params (W and b) for Dense"
  | none =>
      .ok { activation := activation, output_size := out_size,
            params := [freshW, freshB], switch := sw, freshInits := 2,
            wShape := some (input_size, out_size),
            bShape := some output_size }

/-- Result of `Dense.get_noise_switch` (basic.py lines 184-188): the
switch shared variable when the `switch` attribute exists, and the empty
list `[]` otherwise. -/
inductive NoiseSwitchResult (V : Type) where
  | switchVar (v : V)
  | emptyList
deriving DecidableEq, Repr

/-- Embedding of `Dense.get_noise_switch`: `hasattr(self, 'switch')`
corresponds to the `switch` field being `some`. -/
def get_noise_switch {V : Type} (d : DenseAttrs V) : NoiseSwitchResult V :=
  match d.switch with
  | some v => .switchVar v
  | none => .emptyList

/-- Embedding of `SoftmaxLayer.__init__`'s call into `Dense.__init__`
(basic.py lines 260-274): every `SoftmaxLayer` invokes the Dense base
with `activation='softmax'` and `noise=False`, forwarding `input_size`,
`output_size` and `params_hook`; extra keyword arguments are accepted by
`**kwargs` but never forwarded to the base call, so no caller can change
`noise`. -/
def softmaxInit {V : Type} (input_size output_size : PySize)
    (params_hook : Option (List V)) (freshW freshB switchVar : V) :
    Except String (DenseAttrs V) :=
  denseInit input_size output_size params_hook "softmax" PyNoise.pyFalse
    freshW freshB switchVar

lemma denseInit_ok_fields {V : Type} {i o : PySize} {ph : Option (List V)}
    {act : String} {noise : PyNoise} {fW fB sV : V} {d : DenseAttrs V}
    (h : denseInit i o ph act noise fW fB sV = .ok d) :
    d.switch = (if noise.truthy then some sV else none)
    ∧ d.activation = act
    ∧ d.output_size = pyOr o i := by
  cases ph with
  | none =>
      simp [denseInit] at h
      subst h
      exact ⟨rfl, rfl, rfl⟩
  | some hook =>
      simp [denseInit] at h
      split at h
      · injection h with h
        subst h
        exact ⟨rfl, rfl, rfl⟩
      · simp at h

/-- C8: every `SoftmaxLayer` constructs its Dense base with `noise=False`
and activation forced to `'softmax'`; since `False` is falsy the noise
branch of `Dense.__init__` is never taken, so a `SoftmaxLayer` has no
`switch` attribute and `get_noise_switch` returns the empty list for
every successfully constructed `SoftmaxLayer`. -/
theorem c8_softmax_no_noise_switch {V : Type} (input_size output_size : PySize)
    (params_hook : Option (List V)) (freshW freshB switchVar : V)
    (d : DenseAttrs V)
    (h : softmaxInit input_size output_size params_hook freshW freshB switchVar
          = .ok d) :
    d.switch = none
    ∧ get_noise_switch d = NoiseSwitchResult.emptyList
    ∧ d.activation = "softmax" := by
  have h' : denseInit input_size output_size params_hook "softmax"
      PyNoise.pyFalse freshW freshB switchVar = .ok d := h
  obtain ⟨h1, h2, _⟩ := denseInit_ok_fields h'
  have hs : d.switch = none := by simpa [PyNoise.truthy] using h1
  exact ⟨hs, by simp [get_noise_switch, hs], h2⟩

theorem c8_softmax_no_noise_switch_witness :
    (⟨"softmax", PySize.pyInt 4, [7, 8], none, 2,
        some (PySize.pyInt 3, PySize.pyInt 4), some (PySize.pyInt 4)⟩ :
      DenseAttrs Nat).switch = none
    ∧ get_noise_switch
        (⟨"softmax", PySize.pyInt 4, [7, 8], none, 2,
            some (PySize.pyInt 3, PySize.pyInt 4), some (PySize.pyInt 4)⟩ :
          DenseAttrs Nat) = NoiseSwitchResult.emptyList
    ∧ (⟨"softmax", PySize.pyInt 4, [7, 8], none, 2,
          some (PySize.pyInt 3, PySize.pyInt 4), some (PySize.pyInt 4)⟩ :
        DenseAttrs Nat).activation = "softmax" :=
  c8_softmax_no_noise_switch (PySize.pyInt 3) (PySize.pyInt 4) none 7 8 9 _
    (by decide)

/-- C9: a supplied `params_hook` must contain exactly 2 entries — with
any other length `Dense.__init__` fails its assertion before any
parameter is created — and on success `self.params` is exactly the
hooked pair, with zero freshly initialized variables, which is what makes
parameter sharing between two models possible. -/
theorem c9_params_hook_exactly_two {V : Type} (i o : PySize) (act : String)
    (noise : PyNoise) (fW fB sV : V) (hook : List V) :
    (hook.length ≠ 2 →
      denseInit i o (some hook) act noise fW fB sV
        = .error "Expected 2 params (W and b) for Dense")
    ∧ (hook.length = 2 →
      ∃ d, denseInit i o (some hook) act noise fW fB sV = .ok d
        ∧ d.params = hook ∧ d.freshInits = 0) := by
  constructor
  · intro h
    simp [denseInit, h]
  · intro h
    refine ⟨⟨act, pyOr o i, hook, if noise.truthy then some sV else none,
      0, none, none⟩, ?_, rfl, rfl⟩
    simp [denseInit, h]

theorem c9_params_hook_exactly_two_witness :
    denseInit (PySize.pyInt 3) (PySize.pyInt 4) (some [11]) "rectifier"
        PyNoise.pyNone 7 8 9
       = .error "Expected 2 params (W and b) for Dense"
    ∧ ∃ d : DenseAttrs Nat,
        denseInit (PySize.pyInt 3) (PySize.pyInt 4) (some [11, 22]) "rectifier"
            PyNoise.pyNone 7 8 9 = .ok d
          ∧ d.params = [11, 22] ∧ d.freshInits = 0 :=
  ⟨(c9_params_hook_exactly_two (PySize.pyInt 3) (PySize.pyInt 4) "rectifier"
      PyNoise.pyNone 7 8 9 [11]).1 (by decide),
    (c9_params_hook_exactly_two (PySize.pyInt 3) (PySize.pyInt 4) "rectifier"
      PyNoise.pyNone 7 8 9 [11, 22]).2 (by decide)⟩

/-- C10: `self.output_size` is computed as
`self.output_size or self.input_size` with Python truthiness, so an
omitted `output_size` (`None`) and any falsy value such as `0` both
silently resolve the layer's output size to the input size — with respect
to the resolved output size, an explicit `0` is indistinguishable from
omitting the argument. -/
theorem c10_output_size_falsy_fallback {V : Type} (input_size : PySize)
    (ph : Option (List V)) (act : String) (noise : PyNoise) (fW fB sV : V) :
    pyOr PySize.pyNone input_size = input_size
    ∧ pyOr (PySize.pyInt 0) input_size = input_size
    ∧ (∀ o : PySize, o.truthy = false → pyOr o input_size = input_size)
    ∧ (∀ d, denseInit input_size PySize.pyNone ph act noise fW fB sV = .ok d
          → d.output_size = input_size)
    ∧ (∀ d, denseInit input_size (PySize.pyInt 0) ph act noise fW fB sV = .ok d
          → d.output_size = input_size) := by
  refine ⟨rfl, rfl, fun o ho => ?_, fun d h => ?_, fun d h => ?_⟩
  · simp [pyOr, ho]
  · simpa [pyOr, PySize.truthy] using (denseInit_ok_fields h).2.2
  · simpa [pyOr, PySize.truthy] using (denseInit_ok_fields h).2.2

theorem c10_output_size_falsy_fallback_witness :
    pyOr PySize.pyNone (PySize.pyInt 5) = PySize.pyInt 5
    ∧ pyOr (PySize.pyInt 0) (PySize.pyInt 5) = PySize.pyInt 5
    ∧ (⟨"rectifier", PySize.pyInt 5, [7, 8], none, 2,
          some (PySize.pyInt 5, PySize.pyInt 5), some PySize.pyNone⟩ :
        DenseAttrs Nat).output_size = PySize.pyInt 5
    ∧ (⟨"rectifier", PySize.pyInt 5, [7, 8], none, 2,
          some (PySize.pyInt 5, PySize.pyInt 5), some (PySize.pyInt 0)⟩ :
        DenseAttrs Nat).output_size = PySize.pyInt 5 :=
  ⟨(c10_output_size_falsy_fallback (V := Nat) (PySize.pyInt 5) none
      "rectifier" PyNoise.pyNone 7 8 9).1,
    (c10_output_size_falsy_fallback (V := Nat) (PySize.pyInt 5) none
      "rectifier" PyNoise.pyNone 7 8 9).2.1,
    (c10_output_size_falsy_fallback (V := Nat) (PySize.pyInt 5) none
      "rectifier" PyNoise.pyNone 7 8 9).2.2.2.1 _ (by decide),
    (c10_output_size_falsy_fallback (V := Nat) (PySize.pyInt 5) none
      "rectifier" PyNoise.pyNone 7 8 9).2.2.2.2 _ (by decide)⟩

end OpenDeep
